import Mathlib

/-! ## uxn3ds device layer (`3ds/emulator.c`)

A shallow embedding of the device-register dispatcher (`emu_dei`, `emu_deo`,
`audio_dei`, `audio_deo`), the input translators (`doctrl`, `domouse`), the
reset flow (`prompt_reset`, cold boot in `main`/`start`) and the audio mixing
callback (`audio_callback`), followed by theorems about them.

Conventions.
* Bytes and machine integers are naturals; a store into a `Uint8` location
  reduces modulo 256, C's `~` on a promoted `int` is the 32-bit complement.
* The VM core (`uxn_eval`) and the collaborating peripherals are parameters
  (`Host`); constants of headers that are not part of this file are parameters
  (`Consts`).
* Calls whose order matters are recorded in ghost logs (`Emu.evals`,
  the reaction list returned by `emu_deo`, `Sound.log`).
-/

namespace Uxn3ds

/-! ## Data model -/

/-- The VM as this layer sees it: the 256-byte register file `dev`, the RAM,
and the internal state `ext` of everything this file does not own (stacks,
voices, screen, files, keyboard widget). -/
structure Uxn (E : Type) where
  dev : Nat → Nat
  ram : Nat → Nat
  ext : E

/-- Store into a `Uint8` cell: `d[a] = v`. -/
def poke8 (d : Nat → Nat) (a v : Nat) : Nat → Nat :=
  fun x => if x = a then v % 256 else d x

/-- Modelled from the spec: the `peek16` helper of the missing `util.h`; a
16-bit field is stored high byte first (the spec reads the high byte of a
16-bit position from the first of its two ports). -/
def peek16 (d : Nat → Nat) (a : Nat) : Nat :=
  (d a <<< 8) + d (a + 1)

/-- Modelled from the spec: the `poke16` helper of the missing `util.h`, the
inverse of `peek16` (also the `POKE2` of `uxn.h`). -/
def poke16 (d : Nat → Nat) (a v : Nat) : Nat → Nat :=
  poke8 (poke8 d a (v >>> 8)) (a + 1) v

/-- Modelled from the spec: the `GETVEC` of the missing `uxn.h`, the 16-bit
vector address held in the first two ports of a device block. -/
def GETVEC (d : Nat → Nat) (base : Nat) : Nat :=
  (d base <<< 8) ||| d (base + 1)

/-- C's `~` on a value promoted to a 32-bit `int`. -/
def cnot (x : Nat) : Nat := 0xFFFFFFFF ^^^ x

/-- Which `uxn_eval` call site issued an evaluation. -/
inductive Vec where
  | boot
  | controller
  | pointer
  | screen
deriving DecidableEq, Repr

/-- Ghost record of one `uxn_eval` call: the call site, the address passed and
the register file at the moment of the call. -/
structure EvalCall where
  src : Vec
  pc : Nat
  dev : Nat → Nat

/-- The emulator's own mutable state: the VM, the file-level variables
`ctrl_flags`, `istouching`, `dispswap`, and the ghost log of evaluations. -/
structure Emu (E : Type) where
  u : Uxn E
  ctrl_flags : Nat
  istouching : Bool
  dispswap : Nat
  evals : List EvalCall

/-- Constants of `3ds.h` and `ctr_keyboard.h` used by this file. -/
structure Consts where
  KEY_A : Nat
  KEY_B : Nat
  KEY_L : Nat
  KEY_R : Nat
  KEY_UP : Nat
  KEY_DOWN : Nat
  KEY_LEFT : Nat
  KEY_RIGHT : Nat
  KEY_START : Nat
  KEY_SELECT : Nat
  KEY_TOUCH : Nat
  K_CTRL : Int
  K_ALT : Int
  K_SHIFT : Int
  K_HOME : Int
  K_SYSTEM : Int

/-- The collaborators this file calls. Each may read and change the whole VM
state it is handed. -/
structure Host (E : Type) where
  uxn_eval : Uxn E → Nat → Uxn E
  uxn_boot : Option (Uxn E)
  resetuxn : Uxn E → Option (Uxn E)
  system_load : Uxn E → String → Option (Uxn E)
  screen_reinit : E → E
  keyboard_clear : E → E
  system_deo : Uxn E → Nat → Nat → Uxn E
  ctr_screen_palette : Uxn E → Uxn E
  console_deo : Uxn E → Nat → Nat → Uxn E
  ctr_screen_deo : Uxn E → Nat → Nat → Uxn E
  audio_start : Nat → Uxn E → Nat → Uxn E
  file_deo : Nat → Uxn E → Nat → Nat → Uxn E
  ctr_screen_dei : Uxn E → Nat → Uxn E × Nat
  file_dei : Nat → Uxn E → Nat → Nat → Uxn E × Nat
  datetime_dei : Uxn E → Nat → Uxn E × Nat
  audio_get_vu : E → Nat → Nat
  audio_get_position : E → Nat → Nat

/-- What one frame reads from the hardware after `hidScanInput`. -/
structure Input where
  kbd : Int
  kbd_held : Int → Bool
  down : Nat
  heldKeys : Nat
  scans : List Nat
  touchHeld : Nat
  px : Nat
  py : Nat

/-- Run `uxn_eval(u, pc)` and log the call. -/
def uxn_eval_at {E : Type} (H : Host E) (s : Emu E) (src : Vec) (pc : Nat) : Emu E :=
  { s with u := H.uxn_eval s.u pc, evals := s.evals ++ [⟨src, pc, s.u.dev⟩] }

/-! ## Reset flow and boot -/

/-- First loop of `prompt_reset`: one list element per pass of the loop, the
value `hidKeysDown() | hidKeysHeld()` of that pass; the list ends when
`aptMainLoop()` returns false. `true` means control reaches "Resetting...". -/
def prompt_wait (K : Consts) : List Nat → Bool × List Nat
  | [] => (true, [])
  | allHeld :: rest =>
    if allHeld &&& K.KEY_A ≠ 0 then (true, rest)
    else if allHeld &&& K.KEY_B ≠ 0 then (false, rest)
    else prompt_wait K rest

/-- Second loop of `prompt_reset`: wait until no key is down or held. -/
def release_wait : List Nat → List Nat
  | [] => []
  | allHeld :: rest => if allHeld = 0 then rest else release_wait rest

/-- The function `uxn_load_boot`: the first location that loads wins. -/
def uxn_load_boot {E : Type} (H : Host E) (u : Uxn E) : Option (Uxn E) :=
  match H.system_load u "romfs:/boot.rom" with
  | some u1 => some u1
  | none =>
    match H.system_load u "boot.rom" with
    | some u1 => some u1
    | none =>
      match H.system_load u "/uxn/boot.rom" with
      | some u1 => some u1
      | none => H.system_load u "/uxn/launcher.rom"

/-- The function `prompt_reset`. `none` is the process ending in `error`. -/
def prompt_reset {E : Type} (H : Host E) (K : Consts) (s : Emu E) (scans : List Nat) :
    Option (Emu E) :=
  match prompt_wait K scans with
  | (false, _) => some s
  | (true, rest) =>
    match H.resetuxn s.u with
    | none => none
    | some u1 =>
      match uxn_load_boot H u1 with
      | none => none
      | some u2 =>
        let u3 : Uxn E := { u2 with ext := H.keyboard_clear (H.screen_reinit u2.ext) }
        let _rest := release_wait rest
        let s1 : Emu E := { s with u := u3, ctrl_flags := 0 }
        some (uxn_eval_at H s1 Vec.boot 0x0100)

/-- Cold boot: `main` up to and including the `uxn_eval(u, 0x0100)` that opens
`start`. The file-level variables hold their initialisers. -/
def main_boot {E : Type} (H : Host E) : Option (Emu E) :=
  match H.uxn_boot with
  | none => none
  | some u0 =>
    match uxn_load_boot H u0 with
    | none => none
    | some u1 =>
      let u2 : Uxn E := { u1 with dev := poke16 u1.dev (0x20 + 2) 320 }
      let u3 : Uxn E := { u2 with dev := poke16 u2.dev (0x20 + 4) 240 }
      let s : Emu E := { u := u3, ctrl_flags := 0, istouching := false, dispswap := 0, evals := [] }
      some (uxn_eval_at H s Vec.boot 0x0100)

/-! ## Controller translator -/

/-- The right-hand side of the assignment to `ctrl_flags` in `doctrl`. -/
def ctrl_sample (K : Consts) (key : Int) (held : Nat) (kh : Int → Bool) : Nat :=
  ((held &&& 0x0F)
    ||| (if kh K.K_CTRL then 0x01 else 0)
    ||| (if kh K.K_ALT then 0x02 else 0)
    ||| (if kh K.K_SHIFT then 0x04 else 0)
    ||| (if key = K.K_HOME then 0x08 else 0)
    ||| (if held &&& K.KEY_UP ≠ 0 then 0x10 else 0)
    ||| (if held &&& K.KEY_DOWN ≠ 0 then 0x20 else 0)
    ||| (if held &&& K.KEY_RIGHT ≠ 0 then 0x80 else 0)
    ||| (if held &&& K.KEY_LEFT ≠ 0 then 0x40 else 0)) % 256

/-- The local `key` of `doctrl`: `dispswap ? -1 : keyboard_update()`. -/
def doctrl_key {E : Type} (s : Emu E) (i : Input) : Int :=
  if s.dispswap ≠ 0 then -1 else i.kbd

/-- The value `doctrl` assigns to `dev[0x82]`, from the old register value and
the old and new `ctrl_flags`. -/
def ctrl_apply (r old_flags ctrl_flags : Nat) : Nat :=
  ((r &&& cnot (old_flags &&& cnot ctrl_flags)) ||| (ctrl_flags &&& cnot old_flags)) % 256

/-- The function `doctrl`. -/
def doctrl {E : Type} (H : Host E) (K : Consts) (s : Emu E) (i : Input) : Option (Emu E) :=
  let old_flags := s.ctrl_flags
  let key := doctrl_key s i
  let pressed := i.down
  let held := pressed ||| i.heldKeys
  let s1 : Emu E :=
    if pressed &&& (K.KEY_L ||| K.KEY_R) ≠ 0 then { s with dispswap := (s.dispswap ^^^ 1) % 256 }
    else s
  let s2 : Emu E := { s1 with ctrl_flags := ctrl_sample K key held i.kbd_held }
  let s3 : Emu E :=
    if 0 < key ∧ key < 128 then { s2 with u := { s2.u with dev := poke8 s2.u.dev 0x83 key.toNat } }
    else s2
  let changed : Bool := decide (0 < key ∧ key < 128) || decide (old_flags ≠ s3.ctrl_flags)
  let s6 : Emu E :=
    if changed then
      let s4 : Emu E :=
        { s3 with u := { s3.u with
            dev := poke8 s3.u.dev 0x82 (ctrl_apply (s3.u.dev 0x82) old_flags s3.ctrl_flags) } }
      let s5 := uxn_eval_at H s4 Vec.controller (GETVEC s4.u.dev 0x80)
      if 0 < key ∧ key < 128 then { s5 with u := { s5.u with dev := poke8 s5.u.dev 0x83 0 } }
      else s5
    else s3
  if key = K.K_SYSTEM then prompt_reset H K s6 i.scans else some s6

/-! ## Pointer translator -/

/-- The function `domouse`. -/
def domouse {E : Type} (H : Host E) (K : Consts) (s : Emu E) (i : Input) : Emu E :=
  let r : Emu E × Bool :=
    if s.dispswap ≠ 0 ∧ i.touchHeld &&& K.KEY_TOUCH ≠ 0 then
      let r1 : Emu E × Bool :=
        if s.istouching = false then
          ({ s with u := { s.u with dev := poke8 s.u.dev 0x96 0x01 }, istouching := true }, true)
        else (s, false)
      if peek16 r1.1.u.dev (0x90 + 0x2) ≠ i.px ∨ peek16 r1.1.u.dev (0x90 + 0x4) ≠ i.py then
        ({ r1.1 with u := { r1.1.u with
            dev := poke16 (poke16 r1.1.u.dev (0x90 + 0x2) i.px) (0x90 + 0x4) i.py } }, true)
      else r1
    else if s.istouching then
      ({ s with u := { s.u with dev := poke8 s.u.dev 0x96 0x00 }, istouching := false }, true)
    else (s, false)
  if r.2 then uxn_eval_at H r.1 Vec.pointer (GETVEC r.1.u.dev 0x90) else r.1

/-! ## Frame loop -/

/-- One pass of the loop body of `start` (the redraw aside). -/
def start_frame {E : Type} (H : Host E) (K : Consts) (s : Emu E) (i : Input) : Option (Emu E) :=
  match doctrl H K s i with
  | none => none
  | some s1 =>
    let s2 := domouse H K s1 i
    some (uxn_eval_at H s2 Vec.screen (GETVEC s2.u.dev 0x20))

/-- The loop of `start`: it ends when the input ends (`aptMainLoop()` false)
or when the quit chord is held. -/
def start_loop {E : Type} (H : Host E) (K : Consts) : Emu E → List Input → Option (Emu E)
  | s, [] => some s
  | s, i :: rest =>
    if i.heldKeys &&& (K.KEY_L ||| K.KEY_R ||| K.KEY_START ||| K.KEY_SELECT)
        = (K.KEY_L ||| K.KEY_R ||| K.KEY_START ||| K.KEY_SELECT) then some s
    else
      match start_frame H K s i with
      | none => none
      | some s1 => start_loop H K s1 rest

/-! ## Device bus -/

/-- Ghost record of a device reaction called by `emu_deo`, with the VM state
it was handed. -/
inductive Reaction (E : Type) where
  | system_deo (u : Uxn E) (d p : Nat)
  | ctr_screen_palette (u : Uxn E)
  | console_deo (u : Uxn E) (d p : Nat)
  | ctr_screen_deo (u : Uxn E) (d p : Nat)
  | audio_start (voice : Nat) (u : Uxn E) (d : Nat)
  | file_deo (file : Nat) (u : Uxn E) (d p : Nat)

/-- The function `audio_deo`. -/
def audio_deo {E : Type} (H : Host E) (voice : Nat) (u : Uxn E) (d port : Nat) :
    Uxn E × List (Reaction E) :=
  if port = 0xf then (H.audio_start voice u d, [Reaction.audio_start voice u d])
  else (u, [])

/-- The function `emu_deo`: the VM state after the write and the reactions
called, in order. -/
def emu_deo {E : Type} (H : Host E) (u : Uxn E) (addr v : Nat) : Uxn E × List (Reaction E) :=
  let p := addr &&& 0x0f
  let d := addr &&& 0xf0
  let u0 : Uxn E := { u with dev := poke8 u.dev addr v }
  if d = 0x00 then
    let u1 := H.system_deo u0 d p
    if p > 0x7 ∧ p < 0xe then
      (H.ctr_screen_palette u1, [Reaction.system_deo u0 d p, Reaction.ctr_screen_palette u1])
    else (u1, [Reaction.system_deo u0 d p])
  else if d = 0x10 then (H.console_deo u0 d p, [Reaction.console_deo u0 d p])
  else if d = 0x20 then (H.ctr_screen_deo u0 d p, [Reaction.ctr_screen_deo u0 d p])
  else if d = 0x30 then audio_deo H 0 u0 d p
  else if d = 0x40 then audio_deo H 1 u0 d p
  else if d = 0x50 then audio_deo H 2 u0 d p
  else if d = 0x60 then audio_deo H 3 u0 d p
  else if d = 0xa0 then (H.file_deo 0 u0 d p, [Reaction.file_deo 0 u0 d p])
  else if d = 0xb0 then (H.file_deo 1 u0 d p, [Reaction.file_deo 1 u0 d p])
  else (u0, [])

/-- The `status` of an `ndspWaveBuf` (an enumeration of `3ds.h`). -/
inductive WbufStatus where
  | free
  | queued
  | playing
  | done
deriving DecidableEq, Repr

/-- Ghost record of what the audio callback does, in order; `b` is the index
of the buffer in `soundBuffer`. -/
inductive AudioEv where
  | memset (b : Nat)
  | lock
  | render (voice : Nat) (b : Nat)
  | unlock
  | flush (b : Nat)
  | submit (b : Nat)
deriving DecidableEq, Repr

/-- The voice implementation (`devices/audio.c`): the silent buffer `memset`
yields and `audio_render`, which advances the voices and adds into a buffer. -/
structure AudioHost (V S : Type) where
  silence : S
  audio_render : Nat → V → S → V × S

/-- The audio state: `soundFillBlock`, the status and sample storage of the two
entries of `soundBuffer`, the voices, and the ghost log. -/
structure Sound (V S : Type) where
  soundFillBlock : Bool
  status : Nat → WbufStatus
  data : Nat → S
  voices : V
  log : List AudioEv

/-- Modelled from the spec: the `POLYPHONY` of the missing `devices/audio.h`,
"up to four independent voices". -/
def POLYPHONY : Nat := 4

/-- One pass of the `for` loop of `audio_callback`: `audio_render(i, samples, ...)`. -/
def render_voice {V S : Type} (A : AudioHost V S) (b : Nat) (s : Sound V S) (i : Nat) :
    Sound V S :=
  { s with
    voices := (A.audio_render i s.voices (s.data b)).1
    data := Function.update s.data b (A.audio_render i s.voices (s.data b)).2
    log := s.log ++ [AudioEv.render i b] }

/-- The function `audio_callback`. `ndspChnWaveBufAdd` marks the buffer queued. -/
def audio_callback {V S : Type} (A : AudioHost V S) (s : Sound V S) : Sound V S :=
  let b := if s.soundFillBlock then 1 else 0
  if s.status b = WbufStatus.done then
    let s1 : Sound V S :=
      { s with data := Function.update s.data b A.silence, log := s.log ++ [AudioEv.memset b] }
    let s2 : Sound V S := { s1 with log := s1.log ++ [AudioEv.lock] }
    let s3 := (List.range POLYPHONY).foldl (render_voice A b) s2
    let s4 : Sound V S := { s3 with log := s3.log ++ [AudioEv.unlock] }
    let s5 : Sound V S := { s4 with log := s4.log ++ [AudioEv.flush b] }
    let s6 : Sound V S :=
      { s5 with status := Function.update s5.status b WbufStatus.queued
                log := s5.log ++ [AudioEv.submit b] }
    { s6 with soundFillBlock := !s6.soundFillBlock }
  else s

/-- The audio part of `init`: `soundFillBlock` holds its initialiser, both
buffers are zeroed and handed to the playback channel. -/
def init_sound {V S : Type} (A : AudioHost V S) (v : V) : Sound V S :=
  { soundFillBlock := false
    status := Function.update (Function.update (fun _ => WbufStatus.free) 0 WbufStatus.queued)
      1 WbufStatus.queued
    data := fun _ => A.silence
    voices := v
    log := [AudioEv.submit 0, AudioEv.submit 1] }

/-- What the other contexts did since the previous notification: the playback
engine moved buffer statuses, the main context touched the voices. -/
structure Progress (V : Type) where
  status : (Nat → WbufStatus) → (Nat → WbufStatus)
  voices : V → V

/-- One completion notification, after the progress that preceded it. -/
def notify {V S : Type} (A : AudioHost V S) (s : Sound V S) (e : Progress V) : Sound V S :=
  audio_callback A { s with status := e.status s.status, voices := e.voices s.voices }

/-- A sequence of completion notifications. -/
def notifications {V S : Type} (A : AudioHost V S) (s : Sound V S) (es : List (Progress V)) :
    Sound V S :=
  es.foldl (notify A) s

/-- The buffers zeroed for mixing, in order. -/
def mixed : List AudioEv → List Nat
  | [] => []
  | AudioEv.memset b :: rest => b :: mixed rest
  | _ :: rest => mixed rest

/-- What `audio_callback` logs when it mixes buffer `b`. -/
def mix_events (b : Nat) : List AudioEv :=
  [AudioEv.memset b, AudioEv.lock, AudioEv.render 0 b, AudioEv.render 1 b, AudioEv.render 2 b,
    AudioEv.render 3 b, AudioEv.unlock, AudioEv.flush b, AudioEv.submit b]

/-- The fill index and the list of mixed buffers stay in step: after `k`
mixes the buffers mixed were 0, 1, 0, 1, ... and the fill index is `k mod 2`. -/
def InStep {V S : Type} (s : Sound V S) : Prop :=
  ∃ k : Nat, mixed s.log = (List.range k).map (fun j => j % 2)
    ∧ s.soundFillBlock = decide (k % 2 = 1)

/-! ## Lock discipline -/

/-- The lock-relevant view of an event: taking the lock, giving it back, or
touching the playback state of a voice. -/
inductive Sync where
  | acquire
  | release
  | voice (i : Nat)
deriving DecidableEq, Repr

/-- Lock view of a callback event. -/
def AudioEv.sync : AudioEv → Option Sync
  | AudioEv.lock => some Sync.acquire
  | AudioEv.unlock => some Sync.release
  | AudioEv.render i _ => some (Sync.voice i)
  | _ => none

/-- Lock view of a bus reaction: `audio_start` touches the voice it starts;
`emu_deo` and `audio_deo` contain no lock call. -/
def Reaction.sync {E : Type} : Reaction E → Option Sync
  | Reaction.audio_start i _ _ => some (Sync.voice i)
  | _ => none

/-- Whether every voice access in a sequence happens while the lock is held;
`held` says whether it is held at the start. -/
def guarded : Bool → List Sync → Bool
  | _, [] => true
  | _, Sync.acquire :: rest => guarded true rest
  | _, Sync.release :: rest => guarded false rest
  | held, Sync.voice _ :: rest => held && guarded held rest

/-! ## Specification-side definitions -/

/-- Eight-bit complement. -/
def not8 (x : Nat) : Nat := 0xFF ^^^ x

/-- The two-step update as the specification words it:
`register |= (sampled AND changedBits)` then
`register &= ~(delivered AND changedBits AND NOT sampled)`. -/
def spec_apply (register delivered sampled : Nat) : Nat :=
  let changedBits := delivered ^^^ sampled
  let register1 := register ||| (sampled &&& changedBits)
  register1 &&& not8 (delivered &&& changedBits &&& not8 sampled)

/-- Whether the local `key` of `doctrl` is a printable key. -/
def printable (key : Int) : Prop := 0 < key ∧ key < 128

instance (key : Int) : Decidable (printable key) :=
  inferInstanceAs (Decidable (0 < key ∧ key < 128))

/-- The flag byte `doctrl` samples in a frame entered in state `s`. -/
def ctrl_new {E : Type} (K : Consts) (s : Emu E) (i : Input) : Nat :=
  ctrl_sample K (doctrl_key s i) (i.down ||| i.heldKeys) i.kbd_held

/-- Whether `doctrl` sets its local `changed`: a printable key occurred or the
sampled flag byte differs from the previous one. -/
def delivers {E : Type} (K : Consts) (s : Emu E) (i : Input) : Prop :=
  printable (doctrl_key s i) ∨ s.ctrl_flags ≠ ctrl_new K s i

instance {E : Type} (K : Consts) (s : Emu E) (i : Input) : Decidable (delivers K s i) :=
  inferInstanceAs (Decidable (printable (doctrl_key s i) ∨ s.ctrl_flags ≠ ctrl_new K s i))

/-- The state `doctrl` has reached when it arrives at its closing test
`if (key == K_SYSTEM)`: the body of `doctrl` without that test. -/
def ctrl_step {E : Type} (H : Host E) (K : Consts) (s : Emu E) (i : Input) : Emu E :=
  let old_flags := s.ctrl_flags
  let key := doctrl_key s i
  let pressed := i.down
  let held := pressed ||| i.heldKeys
  let s1 : Emu E :=
    if pressed &&& (K.KEY_L ||| K.KEY_R) ≠ 0 then { s with dispswap := (s.dispswap ^^^ 1) % 256 }
    else s
  let s2 : Emu E := { s1 with ctrl_flags := ctrl_sample K key held i.kbd_held }
  let s3 : Emu E :=
    if 0 < key ∧ key < 128 then { s2 with u := { s2.u with dev := poke8 s2.u.dev 0x83 key.toNat } }
    else s2
  let changed : Bool := decide (0 < key ∧ key < 128) || decide (old_flags ≠ s3.ctrl_flags)
  if changed then
    let s4 : Emu E :=
      { s3 with u := { s3.u with
          dev := poke8 s3.u.dev 0x82 (ctrl_apply (s3.u.dev 0x82) old_flags s3.ctrl_flags) } }
    let s5 := uxn_eval_at H s4 Vec.controller (GETVEC s4.u.dev 0x80)
    if 0 < key ∧ key < 128 then { s5 with u := { s5.u with dev := poke8 s5.u.dev 0x83 0 } }
    else s5
  else s3

/-- The `dispswap` a frame leaves behind. -/
def next_dispswap {E : Type} (K : Consts) (s : Emu E) (i : Input) : Nat :=
  if i.down &&& (K.KEY_L ||| K.KEY_R) ≠ 0 then (s.dispswap ^^^ 1) % 256 else s.dispswap

/-- The register file `doctrl` hands to the controller vector when it delivers. -/
def ctrl_image {E : Type} (K : Consts) (s : Emu E) (i : Input) : Nat → Nat :=
  let staged := if printable (doctrl_key s i) then poke8 s.u.dev 0x83 (doctrl_key s i).toNat
    else s.u.dev
  poke8 staged 0x82 (ctrl_apply (s.u.dev 0x82) s.ctrl_flags (ctrl_new K s i))

/-- Touch is present on the active touch surface: the condition of the outer
`if` of `domouse`. -/
def touching {E : Type} (K : Consts) (s : Emu E) (i : Input) : Prop :=
  s.dispswap ≠ 0 ∧ i.touchHeld &&& K.KEY_TOUCH ≠ 0

instance {E : Type} (K : Consts) (s : Emu E) (i : Input) : Decidable (touching K s i) :=
  inferInstanceAs (Decidable (s.dispswap ≠ 0 ∧ i.touchHeld &&& K.KEY_TOUCH ≠ 0))

/-- The touch coordinates differ from the coordinates held in the pointer
registers. -/
def moved {E : Type} (s : Emu E) (i : Input) : Prop :=
  peek16 s.u.dev 0x92 ≠ i.px ∨ peek16 s.u.dev 0x94 ≠ i.py

instance {E : Type} (s : Emu E) (i : Input) : Decidable (moved s i) :=
  inferInstanceAs (Decidable (peek16 s.u.dev 0x92 ≠ i.px ∨ peek16 s.u.dev 0x94 ≠ i.py))

/-- Whether `domouse` sets its local `changed`: contact begins, contact ends,
or contact is present and the coordinates moved. -/
def pointer_changed {E : Type} (K : Consts) (s : Emu E) (i : Input) : Prop :=
  (touching K s i ∧ s.istouching = false) ∨ (¬ touching K s i ∧ s.istouching = true)
    ∨ (touching K s i ∧ moved s i)

instance {E : Type} (K : Consts) (s : Emu E) (i : Input) : Decidable (pointer_changed K s i) :=
  inferInstanceAs (Decidable ((touching K s i ∧ s.istouching = false)
    ∨ (¬ touching K s i ∧ s.istouching = true) ∨ (touching K s i ∧ moved s i)))

/-- The register file after the writes `domouse` itself makes in a frame. -/
def pointer_image {E : Type} (K : Consts) (s : Emu E) (i : Input) : Nat → Nat :=
  if touching K s i then
    let d1 := if s.istouching = false then poke8 s.u.dev 0x96 0x01 else s.u.dev
    if moved s i then poke16 (poke16 d1 0x92 i.px) 0x94 i.py else d1
  else if s.istouching = true then poke8 s.u.dev 0x96 0x00
  else s.u.dev

/-! ## Concrete instances used to exercise the theorems -/

/-- The key masks of libctru's `hid.h`, with sample codes for the soft
keyboard's special keys. -/
def ctru : Consts :=
  { KEY_A := 1, KEY_B := 2, KEY_SELECT := 4, KEY_START := 8
    KEY_R := 256, KEY_L := 512
    KEY_RIGHT := 2 ^ 4 + 2 ^ 28, KEY_LEFT := 2 ^ 5 + 2 ^ 29
    KEY_UP := 2 ^ 6 + 2 ^ 30, KEY_DOWN := 2 ^ 7 + 2 ^ 31
    KEY_TOUCH := 2 ^ 20
    K_CTRL := -2, K_ALT := -3, K_SHIFT := -4, K_HOME := -5, K_SYSTEM := -6 }

/-- A VM whose every reaction and evaluation leaves the state alone, whose
reset zeroes the register file and whose loader succeeds at once. -/
def quietHost : Host Unit :=
  { uxn_eval := fun u _ => u
    uxn_boot := some { dev := fun _ => 0, ram := fun _ => 0, ext := () }
    resetuxn := fun u => some { u with dev := fun _ => 0 }
    system_load := fun u _ => some u
    screen_reinit := fun e => e
    keyboard_clear := fun e => e
    system_deo := fun u _ _ => u
    ctr_screen_palette := fun u => u
    console_deo := fun u _ _ => u
    ctr_screen_deo := fun u _ _ => u
    audio_start := fun _ u _ => u
    file_deo := fun _ u _ _ => u
    ctr_screen_dei := fun u a => (u, u.dev a)
    file_dei := fun _ u d p => (u, u.dev (d + p))
    datetime_dei := fun u a => (u, u.dev a)
    audio_get_vu := fun _ _ => 7
    audio_get_position := fun _ _ => 0x1234 }

/-- The emulator right after a cold boot on `quietHost`, registers all zero. -/
def emu0 : Emu Unit :=
  { u := { dev := fun _ => 0, ram := fun _ => 0, ext := () }
    ctrl_flags := 0, istouching := false, dispswap := 0, evals := [] }

/-- A frame with no input at all. -/
def idle : Input :=
  { kbd := -1, kbd_held := fun _ => false, down := 0, heldKeys := 0, scans := []
    touchHeld := 0, px := 0, py := 0 }

/-- Button A goes down in this frame. -/
def pressA : Input := { idle with down := 1 }

/-- The soft keyboard reports the printable key `a`. -/
def typeA : Input := { idle with kbd := 97 }

/-- The emulator with the touch screen active (`dispswap` set), registers all
zero, no contact tracked. -/
def emuSwapped : Emu Unit := { emu0 with dispswap := 1 }

/-- The emulator with the touch screen active and a contact tracked. -/
def emuTouching : Emu Unit := { emu0 with dispswap := 1, istouching := true }

/-- A frame in which the stylus touches the screen at `(x, y)`. -/
def touchAt (x y : Nat) : Input := { idle with touchHeld := 2 ^ 20, px := x, py := y }

/-- A toy voice implementation: samples are one number per buffer, voice `i`
adds `i + 1` to it and the voice state counts the renders. -/
def tone : AudioHost Nat Nat :=
  { silence := 0, audio_render := fun i v smp => (v + 1, smp + (i + 1)) }

/-- The playback engine has finished every buffer; the voices are untouched. -/
def allDone : Progress Nat :=
  { status := fun _ _ => WbufStatus.done, voices := fun v => v }

/-- The sound state after `init` once both buffers have been played. -/
def playedSound : Sound Nat Nat :=
  { init_sound tone 0 with status := fun _ => WbufStatus.done }

/-! ## Theorems: basic lemmas -/

theorem poke8_same (d : Nat → Nat) (a v : Nat) : poke8 d a v a = v % 256 := by
  simp [poke8]

theorem poke8_other (d : Nat → Nat) (a v x : Nat) (h : x ≠ a) : poke8 d a v x = d x := by
  simp [poke8, h]

theorem testBit_cnot (x i : Nat) : (cnot x).testBit i = (decide (i < 32) ^^ x.testBit i) := by
  have h : (0xFFFFFFFF : Nat) = 2 ^ 32 - 1 := by norm_num
  unfold cnot
  rw [Nat.testBit_xor, h, Nat.testBit_two_pow_sub_one]

theorem testBit_not8 (x i : Nat) : (not8 x).testBit i = (decide (i < 8) ^^ x.testBit i) := by
  have h : (0xFF : Nat) = 2 ^ 8 - 1 := by norm_num
  unfold not8
  rw [Nat.testBit_xor, h, Nat.testBit_two_pow_sub_one]

theorem testBit_byte_high {x i : Nat} (hx : x < 256) (hi : 8 ≤ i) : x.testBit i = false := by
  apply Nat.testBit_lt_two_pow
  calc x < 2 ^ 8 := by simpa using hx
    _ ≤ 2 ^ i := Nat.pow_le_pow_right (by norm_num) hi

/-- Bitwise reading of the assignment to `dev[0x82]`: below bit 8, a bit on
which the old and new flags differ takes the new flag, any other bit keeps the
register's value. -/
theorem ctrl_apply_testBit (r o n i : Nat) :
    (ctrl_apply r o n).testBit i
      = (decide (i < 8) && (if o.testBit i = n.testBit i then r.testBit i else n.testBit i)) := by
  have h : (256 : Nat) = 2 ^ 8 := by norm_num
  unfold ctrl_apply
  rw [h, Nat.testBit_mod_two_pow]
  simp only [Nat.testBit_or, Nat.testBit_and, testBit_cnot]
  by_cases hi : i < 8
  · have hi32 : i < 32 := by omega
    simp only [hi, hi32, decide_True, Bool.true_and, Bool.true_xor]
    cases r.testBit i <;> cases o.testBit i <;> cases n.testBit i <;> rfl
  · simp [hi]

theorem ctrl_apply_lt (r o n : Nat) : ctrl_apply r o n < 256 := by
  unfold ctrl_apply
  exact Nat.mod_lt _ (by norm_num)

theorem spec_apply_testBit (r o n i : Nat) (hr : r < 256) (ho : o < 256) (hn : n < 256) :
    (spec_apply r o n).testBit i
      = (decide (i < 8) && (if o.testBit i = n.testBit i then r.testBit i else n.testBit i)) := by
  unfold spec_apply
  simp only [Nat.testBit_and, Nat.testBit_or, Nat.testBit_xor, testBit_not8]
  by_cases hi : i < 8
  · simp only [hi, decide_True, Bool.true_and, Bool.true_xor]
    cases r.testBit i <;> cases o.testBit i <;> cases n.testBit i <;> rfl
  · have h8 : 8 ≤ i := by omega
    simp [hi, testBit_byte_high hr h8, testBit_byte_high ho h8, testBit_byte_high hn h8]

/-- The assignment in `doctrl` computes the two-step update of the
specification on bytes. -/
theorem ctrl_apply_eq_spec_apply (r o n : Nat) (hr : r < 256) (ho : o < 256) (hn : n < 256) :
    ctrl_apply r o n = spec_apply r o n := by
  apply Nat.eq_of_testBit_eq
  intro i
  rw [ctrl_apply_testBit, spec_apply_testBit r o n i hr ho hn]

theorem ctrl_sample_lt (K : Consts) (key : Int) (held : Nat) (kh : Int → Bool) :
    ctrl_sample K key held kh < 256 := by
  unfold ctrl_sample
  exact Nat.mod_lt _ (by norm_num)

/-! ## The controller translator, case by case -/

theorem doctrl_eq {E : Type} (H : Host E) (K : Consts) (s : Emu E) (i : Input) :
    doctrl H K s i
      = if doctrl_key s i = K.K_SYSTEM then prompt_reset H K (ctrl_step H K s i) i.scans
        else some (ctrl_step H K s i) := rfl

theorem ctrl_step_deliver {E : Type} (H : Host E) (K : Consts) (s : Emu E) (i : Input)
    (h : delivers K s i) :
    ctrl_step H K s i =
      { u := if printable (doctrl_key s i) then
            { H.uxn_eval { s.u with dev := ctrl_image K s i } (GETVEC (ctrl_image K s i) 0x80) with
              dev := poke8 (H.uxn_eval { s.u with dev := ctrl_image K s i }
                (GETVEC (ctrl_image K s i) 0x80)).dev 0x83 0 }
          else H.uxn_eval { s.u with dev := ctrl_image K s i } (GETVEC (ctrl_image K s i) 0x80)
        ctrl_flags := ctrl_new K s i
        istouching := s.istouching
        dispswap := next_dispswap K s i
        evals := s.evals ++ [⟨Vec.controller, GETVEC (ctrl_image K s i) 0x80, ctrl_image K s i⟩] } := by
  unfold delivers printable at h
  unfold ctrl_step ctrl_image next_dispswap printable ctrl_new uxn_eval_at
  by_cases hk : 0 < doctrl_key s i ∧ doctrl_key s i < 128
  · by_cases hp : i.down &&& (K.KEY_L ||| K.KEY_R) ≠ 0 <;>
      simp [hk, hp, poke8]
  · have hc : s.ctrl_flags ≠
        ctrl_sample K (doctrl_key s i) (i.down ||| i.heldKeys) i.kbd_held := by
      rcases h with h | h
      · exact absurd h hk
      · exact h
    by_cases hp : i.down &&& (K.KEY_L ||| K.KEY_R) ≠ 0 <;>
      simp [hk, hp, hc]

theorem ctrl_step_idle {E : Type} (H : Host E) (K : Consts) (s : Emu E) (i : Input)
    (h : ¬ delivers K s i) :
    ctrl_step H K s i = { s with dispswap := next_dispswap K s i } := by
  unfold delivers printable at h
  unfold ctrl_step next_dispswap
  have hk : ¬ (0 < doctrl_key s i ∧ doctrl_key s i < 128) := (not_or.mp h).1
  have hc : s.ctrl_flags
      = ctrl_sample K (doctrl_key s i) (i.down ||| i.heldKeys) i.kbd_held :=
    not_not.mp (not_or.mp h).2
  by_cases hp : i.down &&& (K.KEY_L ||| K.KEY_R) ≠ 0 <;>
    simp [hk, hp, ← hc]

/-! ## The pointer translator, case by case -/

theorem peek16_poke8_other (d : Nat → Nat) (a b v : Nat) (h1 : a ≠ b) (h2 : a + 1 ≠ b) :
    peek16 (poke8 d b v) a = peek16 d a := by
  unfold peek16
  rw [poke8_other d b v a h1, poke8_other d b v (a + 1) h2]

theorem domouse_changed {E : Type} (H : Host E) (K : Consts) (s : Emu E) (i : Input)
    (h : pointer_changed K s i) :
    domouse H K s i =
      { u := H.uxn_eval { s.u with dev := pointer_image K s i } (GETVEC (pointer_image K s i) 0x90)
        ctrl_flags := s.ctrl_flags
        istouching := decide (touching K s i)
        dispswap := s.dispswap
        evals := s.evals ++ [⟨Vec.pointer, GETVEC (pointer_image K s i) 0x90, pointer_image K s i⟩] } := by
  unfold pointer_changed at h
  unfold domouse pointer_image uxn_eval_at
  by_cases ht : touching K s i
  · have ht' : s.dispswap ≠ 0 ∧ i.touchHeld &&& K.KEY_TOUCH ≠ 0 := ht
    by_cases hi : s.istouching = false
    · by_cases hm : moved s i
      · have hm' : peek16 (poke8 s.u.dev 0x96 0x01) (0x90 + 0x2) ≠ i.px
            ∨ peek16 (poke8 s.u.dev 0x96 0x01) (0x90 + 0x4) ≠ i.py := by
          rw [peek16_poke8_other _ _ _ _ (by decide) (by decide),
            peek16_poke8_other _ _ _ _ (by decide) (by decide)]
          exact hm
        simp only [ht, ht', hi, hm, hm', if_true, and_self, ne_eq, not_false_eq_true, decide_True]
      · have hm' : ¬ (peek16 (poke8 s.u.dev 0x96 0x01) (0x90 + 0x2) ≠ i.px
            ∨ peek16 (poke8 s.u.dev 0x96 0x01) (0x90 + 0x4) ≠ i.py) := by
          rw [peek16_poke8_other _ _ _ _ (by decide) (by decide),
            peek16_poke8_other _ _ _ _ (by decide) (by decide)]
          exact hm
        simp only [ht, ht', hi, hm, hm', if_true, if_false, and_self, ne_eq, not_false_eq_true,
          decide_True]
    · have hm : moved s i := by
        rcases h with h | h | h
        · exact absurd h.2 hi
        · exact absurd ht h.1
        · exact h.2
      have hm' : peek16 s.u.dev (0x90 + 0x2) ≠ i.px ∨ peek16 s.u.dev (0x90 + 0x4) ≠ i.py := hm
      have hi' : s.istouching = true := by simpa using hi
      simp only [ht, ht', hi', hm, hm', if_true, if_false, and_self, ne_eq, not_false_eq_true,
        decide_True, Bool.true_eq_false]
  · have ht' : ¬ (s.dispswap ≠ 0 ∧ i.touchHeld &&& K.KEY_TOUCH ≠ 0) := ht
    have hi : s.istouching = true := by
      rcases h with h | h | h
      · exact absurd h.1 ht
      · exact h.2
      · exact absurd h.1 ht
    simp only [ht, ht', hi, if_true, if_false, decide_False]

theorem domouse_unchanged {E : Type} (H : Host E) (K : Consts) (s : Emu E) (i : Input)
    (h : ¬ pointer_changed K s i) : domouse H K s i = s := by
  unfold pointer_changed at h
  unfold domouse
  by_cases ht : touching K s i
  · have ht' : s.dispswap ≠ 0 ∧ i.touchHeld &&& K.KEY_TOUCH ≠ 0 := ht
    have hi : s.istouching = true := by
      have hi0 : ¬ s.istouching = false := fun hi => h (Or.inl ⟨ht, hi⟩)
      simpa using hi0
    have hm : ¬ (peek16 s.u.dev (0x90 + 0x2) ≠ i.px ∨ peek16 s.u.dev (0x90 + 0x4) ≠ i.py) :=
      fun hm => h (Or.inr (Or.inr ⟨ht, hm⟩))
    simp only [ht', hi, hm, if_true, if_false, and_self, ne_eq, not_false_eq_true,
      Bool.true_eq_false, Bool.false_eq_true]
  · have ht' : ¬ (s.dispswap ≠ 0 ∧ i.touchHeld &&& K.KEY_TOUCH ≠ 0) := ht
    have hi : s.istouching = false := by
      have hi0 : ¬ s.istouching = true := fun hi => h (Or.inr (Or.inl ⟨ht, hi⟩))
      simpa using hi0
    simp only [ht', hi, if_false, Bool.false_eq_true]

theorem doctrl_of_ne_system {E : Type} (H : Host E) (K : Consts) (s : Emu E) (i : Input)
    (h : doctrl_key s i ≠ K.K_SYSTEM) : doctrl H K s i = some (ctrl_step H K s i) := by
  rw [doctrl_eq, if_neg h]

theorem ctrl_image_flags {E : Type} (K : Consts) (s : Emu E) (i : Input) :
    ctrl_image K s i 0x82 = ctrl_apply (s.u.dev 0x82) s.ctrl_flags (ctrl_new K s i) := by
  unfold ctrl_image
  rw [poke8_same]
  exact Nat.mod_eq_of_lt (ctrl_apply_lt _ _ _)

/-! ## Pointer registers -/

theorem peek16_poke16_same (d : Nat → Nat) (a v : Nat) (hv : v < 65536) :
    peek16 (poke16 d a v) a = v := by
  unfold peek16 poke16
  rw [poke8_same, poke8_other _ _ _ _ (by omega), poke8_same, Nat.shiftLeft_eq,
    Nat.shiftRight_eq_div_pow]
  omega

theorem peek16_poke16_other (d : Nat → Nat) (a b v : Nat) (h1 : a ≠ b) (h2 : a ≠ b + 1)
    (h3 : a + 1 ≠ b) :
    peek16 (poke16 d b v) a = peek16 d a := by
  unfold poke16
  rw [peek16_poke8_other _ _ _ _ h2 (by omega), peek16_poke8_other _ _ _ _ h1 h3]

theorem poke16_other (d : Nat → Nat) (a v x : Nat) (h1 : x ≠ a) (h2 : x ≠ a + 1) :
    poke16 d a v x = d x := by
  unfold poke16
  rw [poke8_other _ _ _ _ h2, poke8_other _ _ _ _ h1]

/-- Registers away from 0x92..0x96 are the same in the image as before. -/
theorem pointer_image_outside {E : Type} (K : Consts) (s : Emu E) (i : Input) (a : Nat)
    (ha : a < 0x92 ∨ 0x96 < a) : pointer_image K s i a = s.u.dev a := by
  have p96 : ∀ (d : Nat → Nat) (v : Nat), poke8 d 0x96 v a = d a :=
    fun d v => poke8_other d 0x96 v a (by omega)
  have p92 : ∀ (d : Nat → Nat) (v : Nat), poke16 d 0x92 v a = d a :=
    fun d v => poke16_other d 0x92 v a (by omega) (by omega)
  have p94 : ∀ (d : Nat → Nat) (v : Nat), poke16 d 0x94 v a = d a :=
    fun d v => poke16_other d 0x94 v a (by omega) (by omega)
  unfold pointer_image
  split_ifs <;> simp only [p96, p92, p94]

/-- The contact flag register in the image. -/
theorem pointer_image_flag {E : Type} (K : Consts) (s : Emu E) (i : Input) :
    pointer_image K s i 0x96
      = if touching K s i then (if s.istouching = false then 1 else s.u.dev 0x96)
        else if s.istouching = true then 0 else s.u.dev 0x96 := by
  have p92 : ∀ (d : Nat → Nat) (v : Nat), poke16 d 0x92 v 0x96 = d 0x96 :=
    fun d v => poke16_other d 0x92 v 0x96 (by decide) (by decide)
  have p94 : ∀ (d : Nat → Nat) (v : Nat), poke16 d 0x94 v 0x96 = d 0x96 :=
    fun d v => poke16_other d 0x94 v 0x96 (by decide) (by decide)
  unfold pointer_image
  split_ifs <;> simp only [p92, p94, poke8_same]

/-- The coordinate registers in the image keep their bytes unless contact is
present and the coordinates moved. -/
theorem pointer_image_coords_kept {E : Type} (K : Consts) (s : Emu E) (i : Input)
    (h : ¬ (touching K s i ∧ moved s i)) (a : Nat) (ha : a ≠ 0x96) :
    pointer_image K s i a = s.u.dev a := by
  unfold pointer_image
  by_cases ht : touching K s i
  · have hm : ¬ moved s i := fun hm => h ⟨ht, hm⟩
    rw [if_pos ht]
    simp only [if_neg hm]
    split_ifs
    · exact poke8_other _ _ _ _ ha
    · rfl
  · rw [if_neg ht]
    split_ifs
    · exact poke8_other _ _ _ _ ha
    · rfl

/-- While contact is present the coordinate fields of the image hold the
touch sample. -/
theorem pointer_image_coords {E : Type} (K : Consts) (s : Emu E) (i : Input)
    (ht : touching K s i) (hpx : i.px < 65536) (hpy : i.py < 65536) :
    peek16 (pointer_image K s i) 0x92 = i.px ∧ peek16 (pointer_image K s i) 0x94 = i.py := by
  unfold pointer_image
  rw [if_pos ht]
  by_cases hm : moved s i
  · simp only [if_pos hm]
    constructor
    · rw [peek16_poke16_other _ _ _ _ (by decide) (by decide) (by decide),
        peek16_poke16_same _ _ _ hpx]
    · rw [peek16_poke16_same _ _ _ hpy]
  · simp only [if_neg hm]
    unfold moved at hm
    have h1 : peek16 s.u.dev 0x92 = i.px := not_not.mp (fun h => hm (Or.inl h))
    have h2 : peek16 s.u.dev 0x94 = i.py := not_not.mp (fun h => hm (Or.inr h))
    split_ifs
    · rw [peek16_poke8_other _ _ _ _ (by decide) (by decide),
        peek16_poke8_other _ _ _ _ (by decide) (by decide)]
      exact ⟨h1, h2⟩
    · exact ⟨h1, h2⟩

/-! ## Device bus routing -/

set_option maxRecDepth 100000 in
theorem audio_nibble :
    ∀ a < 0x70, 0x30 ≤ a →
      ((a &&& 0xf0 = 0x30 ∧ a >>> 4 = 3) ∨ (a &&& 0xf0 = 0x40 ∧ a >>> 4 = 4)
        ∨ (a &&& 0xf0 = 0x50 ∧ a >>> 4 = 5) ∨ (a &&& 0xf0 = 0x60 ∧ a >>> 4 = 6))
      ∧ (a &&& 0xf0) + (a &&& 0x0f) = a := by
  decide

theorem emu_deo_audio {E : Type} (H : Host E) (u : Uxn E) (a v : Nat)
    (ha : 0x30 ≤ a ∧ a ≤ 0x6F) :
    emu_deo H u a v
      = audio_deo H ((a >>> 4) - 3) { u with dev := poke8 u.dev a v } (a &&& 0xf0) (a &&& 0x0f) := by
  have h := (audio_nibble a (by omega) ha.1).1
  unfold emu_deo
  simp only
  generalize a &&& 0xf0 = d at h
  generalize a >>> 4 = k at h
  rcases h with ⟨rfl, rfl⟩ | ⟨rfl, rfl⟩ | ⟨rfl, rfl⟩ | ⟨rfl, rfl⟩ <;> simp

theorem mixed_append (l1 l2 : List AudioEv) : mixed (l1 ++ l2) = mixed l1 ++ mixed l2 := by
  induction l1 with
  | nil => rfl
  | cons e rest ih =>
    cases e <;> simp [mixed, ih]

theorem mixed_mix_events (b : Nat) : mixed (mix_events b) = [b] := rfl

theorem audio_callback_done {V S : Type} (A : AudioHost V S) (s : Sound V S)
    (h : s.status (if s.soundFillBlock then 1 else 0) = WbufStatus.done) :
    audio_callback A s =
      { soundFillBlock := !s.soundFillBlock
        status := Function.update s.status (if s.soundFillBlock then 1 else 0) WbufStatus.queued
        data := Function.update s.data (if s.soundFillBlock then 1 else 0)
          (A.audio_render 3
            (A.audio_render 2
              (A.audio_render 1 (A.audio_render 0 s.voices A.silence).1
                (A.audio_render 0 s.voices A.silence).2).1
              (A.audio_render 1 (A.audio_render 0 s.voices A.silence).1
                (A.audio_render 0 s.voices A.silence).2).2).1
            (A.audio_render 2
              (A.audio_render 1 (A.audio_render 0 s.voices A.silence).1
                (A.audio_render 0 s.voices A.silence).2).1
              (A.audio_render 1 (A.audio_render 0 s.voices A.silence).1
                (A.audio_render 0 s.voices A.silence).2).2).2).2
        voices :=
          (A.audio_render 3
            (A.audio_render 2
              (A.audio_render 1 (A.audio_render 0 s.voices A.silence).1
                (A.audio_render 0 s.voices A.silence).2).1
              (A.audio_render 1 (A.audio_render 0 s.voices A.silence).1
                (A.audio_render 0 s.voices A.silence).2).2).1
            (A.audio_render 2
              (A.audio_render 1 (A.audio_render 0 s.voices A.silence).1
                (A.audio_render 0 s.voices A.silence).2).1
              (A.audio_render 1 (A.audio_render 0 s.voices A.silence).1
                (A.audio_render 0 s.voices A.silence).2).2).2).1
        log := s.log ++ mix_events (if s.soundFillBlock then 1 else 0) } := by
  have hr : List.range POLYPHONY = [0, 1, 2, 3] := by decide
  unfold audio_callback
  simp only [h, if_true, hr, List.foldl_cons, List.foldl_nil, render_voice, mix_events,
    Function.update_same, Function.update_idem, List.append_assoc, List.singleton_append,
    List.cons_append, List.nil_append]

theorem audio_callback_not_done {V S : Type} (A : AudioHost V S) (s : Sound V S)
    (h : s.status (if s.soundFillBlock then 1 else 0) ≠ WbufStatus.done) :
    audio_callback A s = s := by
  unfold audio_callback
  simp only [h, if_false]

theorem inStep_notify {V S : Type} (A : AudioHost V S) (s : Sound V S) (e : Progress V)
    (h : InStep s) : InStep (notify A s e) := by
  obtain ⟨k, hk, hf⟩ := h
  unfold notify
  by_cases hd : (e.status s.status) (if s.soundFillBlock then 1 else 0) = WbufStatus.done
  · rw [audio_callback_done A _ hd]
    refine ⟨k + 1, ?_, ?_⟩
    · show mixed (s.log ++ mix_events (if s.soundFillBlock then 1 else 0)) = _
      rw [mixed_append, mixed_mix_events, hk, List.range_succ, List.map_append, hf]
      have : (if k % 2 = 1 then 1 else 0) = k % 2 := by
        rcases Nat.mod_two_eq_zero_or_one k with h | h <;> simp [h]
      simp [this]
    · show (!s.soundFillBlock) = _
      rw [hf]
      rcases Nat.mod_two_eq_zero_or_one k with h | h
      · have h' : (k + 1) % 2 = 1 := by omega
        simp [h, h']
      · have h' : (k + 1) % 2 = 0 := by omega
        simp [h, h']
  · rw [audio_callback_not_done A _ hd]
    exact ⟨k, hk, hf⟩

theorem inStep_notifications {V S : Type} (A : AudioHost V S) (es : List (Progress V))
    (s : Sound V S) (h : InStep s) : InStep (notifications A s es) := by
  unfold notifications
  induction es generalizing s with
  | nil => exact h
  | cons e rest ih => exact ih (notify A s e) (inStep_notify A s e h)

/-! ## Reset against cold boot -/

theorem uxn_load_boot_dev {E : Type} (H : Host E)
    (hload : ∀ u p u1, H.system_load u p = some u1 → u1.dev = u.dev) (u u1 : Uxn E)
    (h : uxn_load_boot H u = some u1) : u1.dev = u.dev := by
  unfold uxn_load_boot at h
  split at h
  · next w hw =>
    cases h
    exact hload _ _ _ hw
  · split at h
    · next w hw =>
      cases h
      exact hload _ _ _ hw
    · split at h
      · next w hw =>
        cases h
        exact hload _ _ _ hw
      · exact hload _ _ _ h

theorem poke16_screen_size (d : Nat → Nat) :
    poke16 (poke16 d (0x20 + 2) 320) (0x20 + 4) 240 0x22 = 0x01
    ∧ poke16 (poke16 d (0x20 + 2) 320) (0x20 + 4) 240 0x23 = 0x40
    ∧ poke16 (poke16 d (0x20 + 2) 320) (0x20 + 4) 240 0x24 = 0x00
    ∧ poke16 (poke16 d (0x20 + 2) 320) (0x20 + 4) 240 0x25 = 0xF0 := by
  unfold poke16 poke8
  refine ⟨?_, ?_, ?_, ?_⟩ <;> simp

/-! ## Claims -/

/-- C1: when `doctrl` delivers, it logs exactly one controller evaluation, and
the value of register 0x82 at that evaluation is the specification's two-step
update of the prior register value with the previous and the newly sampled
flag bytes; bit by bit, a bit on which the two flag bytes differ takes the new
flag and a bit on which they agree keeps the register's prior value. -/
theorem doctrl_delivery_applies_flag_diff {E : Type} (H : Host E) (K : Consts) (s : Emu E)
    (i : Input) (hr : s.u.dev 0x82 < 256) (hold : s.ctrl_flags < 256) (hdel : delivers K s i) :
    (doctrl H K s i
        = if doctrl_key s i = K.K_SYSTEM then prompt_reset H K (ctrl_step H K s i) i.scans
          else some (ctrl_step H K s i))
    ∧ (ctrl_step H K s i).ctrl_flags = ctrl_new K s i
    ∧ ∃ c : EvalCall, (ctrl_step H K s i).evals = s.evals ++ [c]
        ∧ c.src = Vec.controller
        ∧ c.dev 0x82 = ctrl_apply (s.u.dev 0x82) s.ctrl_flags (ctrl_new K s i)
        ∧ c.dev 0x82 = spec_apply (s.u.dev 0x82) s.ctrl_flags (ctrl_new K s i)
        ∧ ∀ b : Nat, (c.dev 0x82).testBit b
            = if s.ctrl_flags.testBit b = (ctrl_new K s i).testBit b
              then (s.u.dev 0x82).testBit b else (ctrl_new K s i).testBit b := by
  have hnew : ctrl_new K s i < 256 := ctrl_sample_lt _ _ _ _
  have himg : ctrl_image K s i 0x82
      = ctrl_apply (s.u.dev 0x82) s.ctrl_flags (ctrl_new K s i) := by
    unfold ctrl_image
    rw [poke8_same]
    exact Nat.mod_eq_of_lt (ctrl_apply_lt _ _ _)
  refine ⟨doctrl_eq H K s i, ?_, ⟨Vec.controller, GETVEC (ctrl_image K s i) 0x80,
    ctrl_image K s i⟩, ?_, rfl, himg, ?_, ?_⟩
  · rw [ctrl_step_deliver H K s i hdel]
  · rw [ctrl_step_deliver H K s i hdel]
  · show ctrl_image K s i 0x82 = _
    rw [himg]
    exact ctrl_apply_eq_spec_apply _ _ _ hr hold hnew
  · intro b
    show (ctrl_image K s i 0x82).testBit b = _
    rw [himg, ctrl_apply_testBit]
    by_cases hb : b < 8
    · simp [hb]
    · have h8 : 8 ≤ b := by omega
      simp [hb, testBit_byte_high hr h8, testBit_byte_high hold h8, testBit_byte_high hnew h8]

/-- Witness for C1: button A going down on a freshly booted emulator. -/
theorem doctrl_delivery_applies_flag_diff_witness :
    (emu0.u.dev 0x82 < 256 ∧ emu0.ctrl_flags < 256 ∧ delivers ctru emu0 pressA)
    ∧ ∃ c : EvalCall, (ctrl_step quietHost ctru emu0 pressA).evals = emu0.evals ++ [c]
        ∧ c.dev 0x82 = spec_apply (emu0.u.dev 0x82) emu0.ctrl_flags (ctrl_new ctru emu0 pressA) := by
  refine ⟨⟨by decide, by decide, by decide⟩, ?_⟩
  obtain ⟨_, _, c, h1, _, _, h2, _⟩ :=
    doctrl_delivery_applies_flag_diff quietHost ctru emu0 pressA (by decide) (by decide)
      (by decide)
  exact ⟨c, h1, h2⟩

theorem toNat_printable (key : Int) (h : printable key) : key.toNat % 256 = key.toNat := by
  unfold printable at h
  omega

/-- C3: provided the system key code is not a printable code, a frame with a
printable key `k` logs exactly one controller evaluation, at which register
0x83 holds `k` and register 0x82 the updated flags, and register 0x83 is 0
when `doctrl` returns, whatever the evaluation did. In a frame with no
printable key the only register `doctrl` writes is 0x82, and only when it
delivers: register 0x83 is never written by `doctrl`. -/
theorem doctrl_one_shot_key {E : Type} (H : Host E) (K : Consts) (s : Emu E) (i : Input)
    (hsys : ¬ printable K.K_SYSTEM) :
    (printable (doctrl_key s i) →
      ∃ s', ∃ c : EvalCall, doctrl H K s i = some s'
        ∧ s'.evals = s.evals ++ [c] ∧ c.src = Vec.controller
        ∧ c.dev 0x83 = (doctrl_key s i).toNat
        ∧ c.dev 0x82 = ctrl_apply (s.u.dev 0x82) s.ctrl_flags (ctrl_new K s i)
        ∧ s'.u.dev 0x83 = 0
        ∧ ∀ a, a ≠ 0x83 →
            s'.u.dev a = (H.uxn_eval { s.u with dev := c.dev } (GETVEC c.dev 0x80)).dev a)
    ∧ (¬ printable (doctrl_key s i) →
      (doctrl H K s i
          = if doctrl_key s i = K.K_SYSTEM then prompt_reset H K (ctrl_step H K s i) i.scans
            else some (ctrl_step H K s i))
      ∧ (ctrl_step H K s i).u
          = (if delivers K s i then
              H.uxn_eval
                { s.u with dev := (poke8 s.u.dev 0x82
                    (ctrl_apply (s.u.dev 0x82) s.ctrl_flags (ctrl_new K s i))) }
                (GETVEC (poke8 s.u.dev 0x82
                    (ctrl_apply (s.u.dev 0x82) s.ctrl_flags (ctrl_new K s i))) 0x80)
            else s.u)
      ∧ (ctrl_step H K s i).evals
          = (if delivers K s i then
              s.evals ++ [⟨Vec.controller,
                GETVEC (poke8 s.u.dev 0x82
                    (ctrl_apply (s.u.dev 0x82) s.ctrl_flags (ctrl_new K s i))) 0x80,
                poke8 s.u.dev 0x82 (ctrl_apply (s.u.dev 0x82) s.ctrl_flags (ctrl_new K s i))⟩]
            else s.evals)
      ∧ poke8 s.u.dev 0x82 (ctrl_apply (s.u.dev 0x82) s.ctrl_flags (ctrl_new K s i)) 0x83
          = s.u.dev 0x83) := by
  constructor
  · intro hp
    have hkey : doctrl_key s i ≠ K.K_SYSTEM := fun h => hsys (h ▸ hp)
    have hdel : delivers K s i := Or.inl hp
    refine ⟨ctrl_step H K s i, ⟨Vec.controller, GETVEC (ctrl_image K s i) 0x80,
      ctrl_image K s i⟩, doctrl_of_ne_system H K s i hkey, ?_, rfl, ?_, ctrl_image_flags K s i,
      ?_, ?_⟩
    · rw [ctrl_step_deliver H K s i hdel]
    · show ctrl_image K s i 0x83 = _
      unfold ctrl_image
      rw [if_pos hp, poke8_other _ _ _ _ (by decide), poke8_same]
      exact toNat_printable _ hp
    · rw [ctrl_step_deliver H K s i hdel]
      simp only [if_pos hp]
      exact poke8_same _ _ _
    · intro a ha
      rw [ctrl_step_deliver H K s i hdel]
      simp only [if_pos hp]
      exact poke8_other _ _ _ _ ha
  · intro hp
    have himg : ctrl_image K s i
        = poke8 s.u.dev 0x82 (ctrl_apply (s.u.dev 0x82) s.ctrl_flags (ctrl_new K s i)) := by
      unfold ctrl_image
      rw [if_neg hp]
    refine ⟨doctrl_eq H K s i, ?_, ?_, poke8_other _ _ _ _ (by decide)⟩
    · by_cases hdel : delivers K s i
      · rw [if_pos hdel, ctrl_step_deliver H K s i hdel, ← himg]
        simp only [if_neg hp]
      · rw [if_neg hdel, ctrl_step_idle H K s i hdel]
    · by_cases hdel : delivers K s i
      · rw [if_pos hdel, ctrl_step_deliver H K s i hdel, ← himg]
      · rw [if_neg hdel, ctrl_step_idle H K s i hdel]

/-- Witness for C3: the soft keyboard reports `a` (97) on a freshly booted
emulator. -/
theorem doctrl_one_shot_key_witness :
    ¬ printable ctru.K_SYSTEM
    ∧ ∃ s', ∃ c : EvalCall, doctrl quietHost ctru emu0 typeA = some s'
        ∧ s'.evals = emu0.evals ++ [c] ∧ c.dev 0x83 = 97 ∧ s'.u.dev 0x83 = 0 := by
  refine ⟨by decide, ?_⟩
  obtain ⟨s', c, h1, h2, _, h3, _, h4, _⟩ :=
    (doctrl_one_shot_key quietHost ctru emu0 typeA (by decide)).1 (by decide)
  exact ⟨s', c, h1, h2, h3, h4⟩

/-- C4: `domouse` logs at most one evaluation per frame: exactly one, of the
pointer vector, if contact begins, contact ends, or contact is present and the
touch coordinates differ from the pointer registers; none, leaving the state
as it was, otherwise. When contact begins the contact flag register is 1 and
the coordinate registers hold the touch sample at that evaluation; when
contact was already tracked the contact flag register is left as it was. A
press at (100,120) followed by a drag to (110,125), the coordinate registers
undisturbed in between, gives two deliveries: contact 1 with (100,120), then
contact unchanged with (110,125). -/
theorem domouse_single_delivery {E : Type} (H : Host E) (K : Consts) (s : Emu E) (i : Input)
    (hpx : i.px < 65536) (hpy : i.py < 65536) :
    (pointer_changed K s i →
      ∃ c : EvalCall, (domouse H K s i).evals = s.evals ++ [c]
        ∧ c.src = Vec.pointer ∧ c.pc = GETVEC c.dev 0x90
        ∧ (domouse H K s i).u = H.uxn_eval { s.u with dev := c.dev } c.pc
        ∧ (touching K s i → s.istouching = false →
            c.dev 0x96 = 1 ∧ peek16 c.dev 0x92 = i.px ∧ peek16 c.dev 0x94 = i.py)
        ∧ (touching K s i → s.istouching = true →
            c.dev 0x96 = s.u.dev 0x96 ∧ peek16 c.dev 0x92 = i.px ∧ peek16 c.dev 0x94 = i.py)
        ∧ (¬ touching K s i → c.dev 0x96 = 0))
    ∧ (¬ pointer_changed K s i → domouse H K s i = s)
    ∧ (∀ (t : Emu E) (j : Input), s.istouching = false → touching K s i
        → i.px = 100 → i.py = 120
        → t.istouching = (domouse H K s i).istouching → touching K t j
        → peek16 t.u.dev 0x92 = 100 → peek16 t.u.dev 0x94 = 120
        → j.px = 110 → j.py = 125
        → ∃ c1 c2 : EvalCall, (domouse H K s i).evals = s.evals ++ [c1]
            ∧ c1.src = Vec.pointer
            ∧ c1.dev 0x96 = 1 ∧ peek16 c1.dev 0x92 = 100 ∧ peek16 c1.dev 0x94 = 120
            ∧ (domouse H K t j).evals = t.evals ++ [c2]
            ∧ c2.src = Vec.pointer
            ∧ c2.dev 0x96 = t.u.dev 0x96 ∧ peek16 c2.dev 0x92 = 110
            ∧ peek16 c2.dev 0x94 = 125) := by
  refine ⟨?_, domouse_unchanged H K s i, ?_⟩
  · intro hc
    refine ⟨⟨Vec.pointer, GETVEC (pointer_image K s i) 0x90, pointer_image K s i⟩, ?_, rfl, rfl,
      ?_, ?_, ?_, ?_⟩
    · rw [domouse_changed H K s i hc]
    · rw [domouse_changed H K s i hc]
    · intro ht hi
      refine ⟨?_, pointer_image_coords K s i ht hpx hpy⟩
      show pointer_image K s i 0x96 = 1
      rw [pointer_image_flag, if_pos ht, if_pos hi]
    · intro ht hi
      refine ⟨?_, pointer_image_coords K s i ht hpx hpy⟩
      show pointer_image K s i 0x96 = _
      rw [pointer_image_flag, if_pos ht, if_neg (by simp [hi])]
    · intro ht
      have hi : s.istouching = true := by
        rcases hc with h | h | h
        · exact absurd h.1 ht
        · exact h.2
        · exact absurd h.1 ht
      show pointer_image K s i 0x96 = 0
      rw [pointer_image_flag, if_neg ht, if_pos hi]
  · intro t j hs ht hx hy hti htj htx hty hjx hjy
    have hc1 : pointer_changed K s i := Or.inl ⟨ht, hs⟩
    have hti' : t.istouching = true := by
      rw [hti, domouse_changed H K s i hc1]
      simp [ht]
    have hm : moved t j := by
      refine Or.inl ?_
      rw [htx, hjx]
      decide
    have hc2 : pointer_changed K t j := Or.inr (Or.inr ⟨htj, hm⟩)
    have hjx' : j.px < 65536 := by rw [hjx]; decide
    have hjy' : j.py < 65536 := by rw [hjy]; decide
    have k1 := pointer_image_coords K s i ht hpx hpy
    have k2 := pointer_image_coords K t j htj hjx' hjy'
    rw [hx, hy] at k1
    rw [hjx, hjy] at k2
    refine ⟨⟨Vec.pointer, GETVEC (pointer_image K s i) 0x90, pointer_image K s i⟩,
      ⟨Vec.pointer, GETVEC (pointer_image K t j) 0x90, pointer_image K t j⟩, ?_, rfl, ?_, k1.1,
      k1.2, ?_, rfl, ?_, k2.1, k2.2⟩
    · rw [domouse_changed H K s i hc1]
    · show pointer_image K s i 0x96 = 1
      rw [pointer_image_flag, if_pos ht, if_pos hs]
    · rw [domouse_changed H K t j hc2]
    · show pointer_image K t j 0x96 = _
      rw [pointer_image_flag, if_pos htj, if_neg (by simp [hti'])]

/-- Witness for C4: the stylus lands at (100,120) with the touch screen
active and no contact tracked. -/
theorem domouse_single_delivery_witness :
    ((touchAt 100 120).px < 65536 ∧ (touchAt 100 120).py < 65536)
    ∧ ∃ c : EvalCall, (domouse quietHost ctru emuSwapped (touchAt 100 120)).evals
          = emuSwapped.evals ++ [c]
        ∧ c.src = Vec.pointer ∧ c.dev 0x96 = 1 ∧ peek16 c.dev 0x92 = 100
        ∧ peek16 c.dev 0x94 = 120 := by
  refine ⟨⟨by decide, by decide⟩, ?_⟩
  obtain ⟨c, h1, h2, _, _, h3, _⟩ :=
    (domouse_single_delivery quietHost ctru emuSwapped (touchAt 100 120) (by decide)
      (by decide)).1 (by decide)
  obtain ⟨h4, h5, h6⟩ := h3 (by decide) rfl
  exact ⟨c, h1, h2, h4, h5, h6⟩

/-- C9, as stated, fails: when contact begins at the coordinates the registers
already hold, `domouse` changes register 0x96 and leaves 0x92 alone; and on a
move to (0x0102, 0x0304) under a tracked contact it changes register 0x92,
which lies outside 0x94..0x97, and leaves 0x96 and 0x97 alone. -/
theorem domouse_layout_counterexample :
    (touching ctru emuSwapped (touchAt 0 0) ∧ emuSwapped.istouching = false
      ∧ (domouse quietHost ctru emuSwapped (touchAt 0 0)).u.dev 0x96 = 1
      ∧ emuSwapped.u.dev 0x96 = 0
      ∧ (domouse quietHost ctru emuSwapped (touchAt 0 0)).u.dev 0x92 = emuSwapped.u.dev 0x92)
    ∧ (touching ctru emuTouching (touchAt 0x0102 0x0304) ∧ emuTouching.istouching = true
      ∧ (domouse quietHost ctru emuTouching (touchAt 0x0102 0x0304)).u.dev 0x92 = 1
      ∧ emuTouching.u.dev 0x92 = 0
      ∧ (domouse quietHost ctru emuTouching (touchAt 0x0102 0x0304)).u.dev 0x96
          = emuTouching.u.dev 0x96
      ∧ (domouse quietHost ctru emuTouching (touchAt 0x0102 0x0304)).u.dev 0x97
          = emuTouching.u.dev 0x97) := by
  refine ⟨⟨by decide, rfl, by decide, rfl, by decide⟩, by decide, rfl, by decide, rfl, by decide,
    by decide⟩

/-- C9, amended: the contact flag lives in register 0x96, x in 0x92..0x93 and
y in 0x94..0x95. The register file `domouse` hands to the pointer vector (or
leaves behind when it logs no evaluation) differs from the one it found at
most in 0x92..0x96; a contact transition writes 1 (begin) or 0 (end) to 0x96,
which is otherwise left alone; registers 0x92..0x95 are written only when
contact is present and the coordinates moved, and then they hold the sample. -/
theorem domouse_register_layout {E : Type} (H : Host E) (K : Consts) (s : Emu E) (i : Input)
    (hpx : i.px < 65536) (hpy : i.py < 65536) :
    ((domouse H K s i).u
        = if pointer_changed K s i then
            H.uxn_eval { s.u with dev := pointer_image K s i } (GETVEC (pointer_image K s i) 0x90)
          else s.u)
    ∧ ((domouse H K s i).evals
        = if pointer_changed K s i then
            s.evals ++ [⟨Vec.pointer, GETVEC (pointer_image K s i) 0x90, pointer_image K s i⟩]
          else s.evals)
    ∧ (¬ pointer_changed K s i → pointer_image K s i = s.u.dev)
    ∧ (∀ a, a < 0x92 ∨ 0x96 < a → pointer_image K s i a = s.u.dev a)
    ∧ (touching K s i → s.istouching = false → pointer_image K s i 0x96 = 1)
    ∧ (¬ touching K s i → s.istouching = true → pointer_image K s i 0x96 = 0)
    ∧ ((touching K s i ↔ s.istouching = true) → pointer_image K s i 0x96 = s.u.dev 0x96)
    ∧ (¬ (touching K s i ∧ moved s i) → ∀ a, a ≠ 0x96 → pointer_image K s i a = s.u.dev a)
    ∧ (touching K s i → moved s i →
        peek16 (pointer_image K s i) 0x92 = i.px ∧ peek16 (pointer_image K s i) 0x94 = i.py) := by
  refine ⟨?_, ?_, ?_, pointer_image_outside K s i, ?_, ?_, ?_,
    pointer_image_coords_kept K s i, fun ht _ => pointer_image_coords K s i ht hpx hpy⟩
  · by_cases hc : pointer_changed K s i
    · rw [if_pos hc, domouse_changed H K s i hc]
    · rw [if_neg hc, domouse_unchanged H K s i hc]
  · by_cases hc : pointer_changed K s i
    · rw [if_pos hc, domouse_changed H K s i hc]
    · rw [if_neg hc, domouse_unchanged H K s i hc]
  · intro hc
    funext a
    have hnm : ¬ (touching K s i ∧ moved s i) := fun h => hc (Or.inr (Or.inr h))
    by_cases ha : a = 0x96
    · rw [ha, pointer_image_flag]
      by_cases ht : touching K s i
      · have hi : ¬ s.istouching = false := fun hi => hc (Or.inl ⟨ht, hi⟩)
        rw [if_pos ht, if_neg hi]
      · have hi : ¬ s.istouching = true := fun hi => hc (Or.inr (Or.inl ⟨ht, hi⟩))
        rw [if_neg ht, if_neg hi]
    · exact pointer_image_coords_kept K s i hnm a ha
  · intro ht hi
    rw [pointer_image_flag, if_pos ht, if_pos hi]
  · intro ht hi
    rw [pointer_image_flag, if_neg ht, if_pos hi]
  · intro hiff
    rw [pointer_image_flag]
    by_cases ht : touching K s i
    · rw [if_pos ht, if_neg (by simp [hiff.mp ht])]
    · rw [if_neg ht, if_neg (fun hi => ht (hiff.mpr hi))]

/-- Witness for the amended C9: a drag to (0x0102, 0x0304) under a tracked
contact writes the sample to 0x92..0x95 and nothing else. -/
theorem domouse_register_layout_witness :
    ((touchAt 0x0102 0x0304).px < 65536 ∧ (touchAt 0x0102 0x0304).py < 65536)
    ∧ peek16 (pointer_image ctru emuTouching (touchAt 0x0102 0x0304)) 0x92 = 0x0102
    ∧ peek16 (pointer_image ctru emuTouching (touchAt 0x0102 0x0304)) 0x94 = 0x0304
    ∧ pointer_image ctru emuTouching (touchAt 0x0102 0x0304) 0x96 = emuTouching.u.dev 0x96 := by
  have h := domouse_register_layout quietHost ctru emuTouching (touchAt 0x0102 0x0304)
    (by decide) (by decide)
  obtain ⟨_, _, _, _, _, _, h7, _, h9⟩ := h
  obtain ⟨hx, hy⟩ := h9 (by decide) (by decide)
  exact ⟨⟨by decide, by decide⟩, hx, hy, h7 (by decide)⟩

/-- C7: a notification that finds the next-to-fill buffer `b` done logs, in
this order, zeroing `b`, taking the lock, rendering voices 0 to 3 into `b`,
releasing the lock, flushing and submitting `b`; it touches the samples of no
other buffer, marks `b` queued and flips the fill index. A notification that
finds `b` not done changes nothing. After initialisation and any sequence of
notifications, whatever the playback engine and the main context did in
between, the buffers mixed are 0, 1, 0, 1, ... starting with buffer 0. -/
theorem audio_callback_alternation {V S : Type} (A : AudioHost V S) (v0 : V)
    (es : List (Progress V)) (s : Sound V S) :
    (s.status (if s.soundFillBlock then 1 else 0) = WbufStatus.done →
      (audio_callback A s).log
          = s.log ++
            [AudioEv.memset (if s.soundFillBlock then 1 else 0), AudioEv.lock,
              AudioEv.render 0 (if s.soundFillBlock then 1 else 0),
              AudioEv.render 1 (if s.soundFillBlock then 1 else 0),
              AudioEv.render 2 (if s.soundFillBlock then 1 else 0),
              AudioEv.render 3 (if s.soundFillBlock then 1 else 0), AudioEv.unlock,
              AudioEv.flush (if s.soundFillBlock then 1 else 0),
              AudioEv.submit (if s.soundFillBlock then 1 else 0)]
      ∧ (audio_callback A s).soundFillBlock = (!s.soundFillBlock)
      ∧ (audio_callback A s).status
          = Function.update s.status (if s.soundFillBlock then 1 else 0) WbufStatus.queued
      ∧ (∀ b, b ≠ (if s.soundFillBlock then 1 else 0) →
          (audio_callback A s).data b = s.data b)
      ∧ (audio_callback A s).data (if s.soundFillBlock then 1 else 0)
          = (A.audio_render 3
              (A.audio_render 2
                (A.audio_render 1 (A.audio_render 0 s.voices A.silence).1
                  (A.audio_render 0 s.voices A.silence).2).1
                (A.audio_render 1 (A.audio_render 0 s.voices A.silence).1
                  (A.audio_render 0 s.voices A.silence).2).2).1
              (A.audio_render 2
                (A.audio_render 1 (A.audio_render 0 s.voices A.silence).1
                  (A.audio_render 0 s.voices A.silence).2).1
                (A.audio_render 1 (A.audio_render 0 s.voices A.silence).1
                  (A.audio_render 0 s.voices A.silence).2).2).2).2)
    ∧ (s.status (if s.soundFillBlock then 1 else 0) ≠ WbufStatus.done →
        audio_callback A s = s)
    ∧ (init_sound A v0).soundFillBlock = false
    ∧ (∃ k : Nat,
        mixed (notifications A (init_sound A v0) es).log = (List.range k).map (fun j => j % 2)
        ∧ (notifications A (init_sound A v0) es).soundFillBlock = decide (k % 2 = 1)) := by
  refine ⟨?_, audio_callback_not_done A s, rfl, ?_⟩
  · intro hd
    rw [audio_callback_done A s hd]
    refine ⟨rfl, rfl, rfl, ?_, ?_⟩
    · intro b hb
      exact Function.update_noteq hb _ _
    · exact Function.update_same _ _ _
  · exact inStep_notifications A es (init_sound A v0) ⟨0, rfl, rfl⟩

/-- C8 (the code departs from the claim): take the external reset and the
boot as zeroing the register file and the ROM loader as leaving it alone.
A confirmed reset that reaches the boot vector evaluates it on an all-zero
register file, while a cold boot evaluates it on a register file whose screen
size fields 0x22..0x25 hold 320 and 240: `main` writes them after loading,
`prompt_reset` does not. The two register files differ. The controller state
is 0 in both; `prompt_reset` leaves the tracked contact flag as it found it. -/
theorem reset_register_file_differs_from_cold_boot {E : Type} (H : Host E) (K : Consts)
    (s sr sb : Emu E) (scans : List Nat)
    (hzero : ∀ u u1, H.resetuxn u = some u1 → ∀ a, u1.dev a = 0)
    (hboot : ∀ u0, H.uxn_boot = some u0 → ∀ a, u0.dev a = 0)
    (hload : ∀ u p u1, H.system_load u p = some u1 → u1.dev = u.dev)
    (hconf : (prompt_wait K scans).1 = true)
    (hreset : prompt_reset H K s scans = some sr) (hcold : main_boot H = some sb) :
    ∃ cr cb : EvalCall, sr.evals = s.evals ++ [cr] ∧ sb.evals = [cb]
      ∧ cr.src = Vec.boot ∧ cr.pc = 0x0100 ∧ cb.src = Vec.boot ∧ cb.pc = 0x0100
      ∧ (∀ a, cr.dev a = 0)
      ∧ cb.dev 0x22 = 0x01 ∧ cb.dev 0x23 = 0x40 ∧ cb.dev 0x24 = 0x00 ∧ cb.dev 0x25 = 0xF0
      ∧ (∀ a, a < 0x22 ∨ 0x25 < a → cb.dev a = 0)
      ∧ cr.dev ≠ cb.dev
      ∧ sr.ctrl_flags = 0 ∧ sb.ctrl_flags = 0
      ∧ sr.istouching = s.istouching ∧ sb.istouching = false := by
  -- the reset path
  unfold prompt_reset at hreset
  rcases hw : prompt_wait K scans with ⟨ok, rest⟩
  rw [hw] at hconf hreset
  simp only at hconf
  subst hconf
  simp only at hreset
  cases hr : H.resetuxn s.u with
  | none => rw [hr] at hreset; cases hreset
  | some u1 =>
    rw [hr] at hreset
    simp only at hreset
    cases hl : uxn_load_boot H u1 with
    | none => rw [hl] at hreset; cases hreset
    | some u2 =>
      rw [hl] at hreset
      simp only [Option.some.injEq] at hreset
      have hu2 : ∀ a, u2.dev a = 0 := by
        intro a
        rw [uxn_load_boot_dev H hload u1 u2 hl]
        exact hzero _ _ hr a
      -- the cold boot path
      unfold main_boot at hcold
      cases hb : H.uxn_boot with
      | none => rw [hb] at hcold; cases hcold
      | some u0 =>
        rw [hb] at hcold
        simp only at hcold
        cases hl0 : uxn_load_boot H u0 with
        | none => rw [hl0] at hcold; cases hcold
        | some v1 =>
          rw [hl0] at hcold
          simp only [Option.some.injEq] at hcold
          have hv1 : ∀ a, v1.dev a = 0 := by
            intro a
            rw [uxn_load_boot_dev H hload u0 v1 hl0]
            exact hboot _ hb a
          have hsz := poke16_screen_size v1.dev
          have hcb22 : poke16 (poke16 v1.dev (0x20 + 2) 320) (0x20 + 4) 240 0x22 = 0x01 := hsz.1
          refine ⟨⟨Vec.boot, 0x0100, u2.dev⟩,
            ⟨Vec.boot, 0x0100, poke16 (poke16 v1.dev (0x20 + 2) 320) (0x20 + 4) 240⟩,
            ?_, ?_, rfl, rfl, rfl, rfl, hu2, hsz.1, hsz.2.1, hsz.2.2.1, hsz.2.2.2, ?_, ?_, ?_, ?_,
            ?_, ?_⟩
          · rw [← hreset]; rfl
          · rw [← hcold]; rfl
          · intro a ha
            show poke16 (poke16 v1.dev (0x20 + 2) 320) (0x20 + 4) 240 a = 0
            rw [poke16_other _ _ _ _ (by omega) (by omega),
              poke16_other _ _ _ _ (by omega) (by omega)]
            exact hv1 a
          · intro h
            have h22 := congrFun h 0x22
            simp only at h22
            rw [hcb22, hu2] at h22
            exact absurd h22 (by decide)
          · rw [← hreset]; rfl
          · rw [← hcold]; rfl
          · rw [← hreset]; rfl
          · rw [← hcold]; rfl

/-- Witness for C8: reset confirmed with button A on the quiet VM. -/
theorem reset_register_file_differs_from_cold_boot_witness :
    (prompt_wait ctru [1]).1 = true
    ∧ ∃ sr sb : Emu Unit, ∃ cr cb : EvalCall,
        prompt_reset quietHost ctru emu0 [1] = some sr ∧ main_boot quietHost = some sb
        ∧ sr.evals = emu0.evals ++ [cr] ∧ sb.evals = [cb]
        ∧ cr.dev 0x22 = 0 ∧ cb.dev 0x22 = 0x01 ∧ cr.dev 0x25 = 0 ∧ cb.dev 0x25 = 0xF0 := by
  refine ⟨by decide, ?_⟩
  obtain ⟨cr, cb, h1, h2, _, _, _, _, h3, h4, _, _, h5, _⟩ :=
    reset_register_file_differs_from_cold_boot quietHost ctru emu0 _ _ [1]
      (fun u u1 h a => by cases h; rfl)
      (fun u0 h a => by cases h; rfl)
      (fun u p u1 h => by cases h; rfl)
      (by decide) rfl rfl
  exact ⟨_, _, cr, cb, rfl, rfl, h1, h2, h3 _, h4, h3 _, h5⟩

/-- C10 (the code departs from the claim): the mixing done by
`audio_callback` touches the four voices between taking and releasing the
lock, but a write to port 0xF of an audio device reaches `audio_start` through
`emu_deo` and `audio_deo` with no lock taken: the reactions logged contain a
voice access and no acquire, so the access is not guarded. -/
theorem voice_start_not_under_lock {E V S : Type} (H : Host E) (A : AudioHost V S) (u : Uxn E)
    (s : Sound V S) (a v : Nat) :
    (s.status (if s.soundFillBlock then 1 else 0) = WbufStatus.done →
      ∃ evs, (audio_callback A s).log = s.log ++ evs
        ∧ evs.filterMap AudioEv.sync
            = [Sync.acquire, Sync.voice 0, Sync.voice 1, Sync.voice 2, Sync.voice 3, Sync.release]
        ∧ guarded false (evs.filterMap AudioEv.sync) = true)
    ∧ (0x30 ≤ a ∧ a ≤ 0x6F → a &&& 0x0F = 0xF →
        (emu_deo H u a v).2.filterMap Reaction.sync = [Sync.voice ((a >>> 4) - 3)]
        ∧ guarded false ((emu_deo H u a v).2.filterMap Reaction.sync) = false) := by
  constructor
  · intro hd
    refine ⟨mix_events (if s.soundFillBlock then 1 else 0), ?_, rfl, rfl⟩
    rw [audio_callback_done A s hd]
  · intro ha hp
    have h : (emu_deo H u a v).2.filterMap Reaction.sync = [Sync.voice ((a >>> 4) - 3)] := by
      rw [emu_deo_audio H u a v ha]
      unfold audio_deo
      rw [if_pos hp]
      rfl
    rw [h]
    exact ⟨rfl, rfl⟩

/-- The failing input of C10 evaluated: writing to 0x3F starts voice 0 with
the lock not held. -/
theorem voice_start_not_under_lock_at_0x3F :
    (emu_deo quietHost emu0.u 0x3F 0).2.filterMap Reaction.sync = [Sync.voice 0]
    ∧ guarded false ((emu_deo quietHost emu0.u 0x3F 0).2.filterMap Reaction.sync) = false := by
  have h := (voice_start_not_under_lock quietHost (⟨(), fun _ v s => (v, s)⟩ : AudioHost Unit Unit)
    emu0.u (init_sound ⟨(), fun _ v s => (v, s)⟩ ()) 0x3F 0).2 (by decide) (by decide)
  exact h

/-- Witness for C7: with both buffers played, the first notification mixes
the four toy voices into buffer 0 and flips the fill index, and three
notifications in a row mix buffers 0, 1, 0. -/
theorem audio_callback_alternation_witness :
    (audio_callback tone playedSound).soundFillBlock = true
    ∧ (audio_callback tone playedSound).data 0 = 10
    ∧ (audio_callback tone playedSound).status 0 = WbufStatus.queued
    ∧ mixed (notifications tone (init_sound tone 0) [allDone, allDone, allDone]).log
        = [0, 1, 0] := by
  obtain ⟨_, h2, h3, _, h5⟩ :=
    (audio_callback_alternation tone 0 [] playedSound).1 (by decide)
  refine ⟨h2, ?_, ?_, by decide⟩
  · rw [show (0 : Nat) = (if playedSound.soundFillBlock then 1 else 0) from rfl, h5]
    rfl
  · rw [h3]
    rfl

end Uxn3ds
